import Mathlib

/-!
Shallow embedding of `crates/rmcp/src/model/capabilities.rs`: the MCP
capability records (client/server capability negotiation data) and the
typestate builder engine that constructs them.

Rust `Option<T>` is `Option T`; `serde_json::Value` is the inductive `Json`;
`serde_json::Map<String, Value>` (the crate's `JsonObject`) and
`BTreeMap<K, V>` are modelled as association lists (the source only relies
on them as key-value aggregates with structural equality).  The builders'
compile-time const-generic tag state (`ServerCapabilitiesBuilderState<
const EXPERIMENTAL: bool, ...>`) is reified as a runtime record of
booleans carried in the builder's `state` field; the availability of each
method for a given tag configuration becomes an explicit side condition
(`ServerOp.avail` / `ClientOp.avail`) used by the reachability relation.
-/

namespace Rmcp

/-- Model of `serde_json::Value` (numbers as integers; the capability
records never inspect numeric payloads). -/
inductive Json where
  | null : Json
  | bool : Bool → Json
  | num : Int → Json
  | str : String → Json
  | arr : List Json → Json
  | obj : List (String × Json) → Json

/-- Model of the crate's `JsonObject` (`serde_json::Map<String, Value>`). -/
abbrev JsonObject := List (String × Json)

/-- `pub type ExperimentalCapabilities = BTreeMap<String, JsonObject>;` -/
abbrev ExperimentalCapabilities := List (String × JsonObject)

/-- `pub type TaskRequestMap = BTreeMap<String, bool>;` -/
abbrev TaskRequestMap := List (String × Bool)

instance : Inhabited Json := ⟨.null⟩

/-- `PromptsCapability { list_changed: Option<bool> }` -/
structure PromptsCapability where
  list_changed : Option Bool := none
  deriving DecidableEq, Repr

instance : Inhabited PromptsCapability := ⟨{}⟩

/-- `ResourcesCapability { subscribe: Option<bool>, list_changed: Option<bool> }` -/
structure ResourcesCapability where
  subscribe : Option Bool := none
  list_changed : Option Bool := none
  deriving DecidableEq, Repr

instance : Inhabited ResourcesCapability := ⟨{}⟩

/-- `ToolsCapability { list_changed: Option<bool> }` -/
structure ToolsCapability where
  list_changed : Option Bool := none
  deriving DecidableEq, Repr

instance : Inhabited ToolsCapability := ⟨{}⟩

/-- `RootsCapabilities { list_changed: Option<bool> }` (deprecated in the source). -/
structure RootsCapabilities where
  list_changed : Option Bool := none
  deriving DecidableEq, Repr

instance : Inhabited RootsCapabilities := ⟨{}⟩

/-- `TasksCapability { requests, list, cancel }` -/
structure TasksCapability where
  requests : Option TaskRequestMap := none
  list : Option Bool := none
  cancel : Option Bool := none
  deriving DecidableEq, Repr

instance : Inhabited TasksCapability := ⟨{}⟩

/-- `FormElicitationCapability { schema_validation: Option<bool> }` -/
structure FormElicitationCapability where
  schema_validation : Option Bool := none
  deriving DecidableEq, Repr

instance : Inhabited FormElicitationCapability := ⟨{}⟩

/-- `UrlElicitationCapability {}` (empty; presence indicates URL mode support). -/
structure UrlElicitationCapability where
  deriving DecidableEq, Repr

instance : Inhabited UrlElicitationCapability := ⟨{}⟩

/-- `ElicitationCapability { form, url, schema_validation }` -/
structure ElicitationCapability where
  form : Option FormElicitationCapability := none
  url : Option UrlElicitationCapability := none
  schema_validation : Option Bool := none
  deriving DecidableEq, Repr

instance : Inhabited ElicitationCapability := ⟨{}⟩

/-- `ElicitationCapability::form_only()` -/
def ElicitationCapability.form_only : ElicitationCapability :=
  { form := some default, url := none, schema_validation := none }

/-- `ElicitationCapability::url_only()` -/
def ElicitationCapability.url_only : ElicitationCapability :=
  { form := none, url := some default, schema_validation := none }

/-- `ElicitationCapability::both()` -/
def ElicitationCapability.both : ElicitationCapability :=
  { form := some default, url := some default, schema_validation := none }

/-- `ElicitationCapability::supports_form` -/
def ElicitationCapability.supports_form (c : ElicitationCapability) : Bool :=
  c.form.isSome

/-- `ElicitationCapability::supports_url` -/
def ElicitationCapability.supports_url (c : ElicitationCapability) : Bool :=
  c.url.isSome

/-- `ClientCapabilities { experimental, roots, sampling, elicitation, tasks }` -/
structure ClientCapabilities where
  experimental : Option ExperimentalCapabilities := none
  roots : Option RootsCapabilities := none
  sampling : Option JsonObject := none
  elicitation : Option ElicitationCapability := none
  tasks : Option TasksCapability := none

instance : Inhabited ClientCapabilities := ⟨{}⟩

/-- `ServerCapabilities { experimental, logging, completions, prompts, resources, tools, tasks }` -/
structure ServerCapabilities where
  experimental : Option ExperimentalCapabilities := none
  logging : Option JsonObject := none
  completions : Option JsonObject := none
  prompts : Option PromptsCapability := none
  resources : Option ResourcesCapability := none
  tools : Option ToolsCapability := none
  tasks : Option TasksCapability := none

instance : Inhabited ServerCapabilities := ⟨{}⟩

/-- Reification of `ServerCapabilitiesBuilderState<const EXPERIMENTAL: bool,
const LOGGING: bool, const COMPLETIONS: bool, const PROMPTS: bool,
const RESOURCES: bool, const TOOLS: bool, const TASKS: bool>`: one boolean
per field, all `false` in the default specialization. -/
structure ServerCapabilitiesBuilderState where
  experimental : Bool := false
  logging : Bool := false
  completions : Bool := false
  prompts : Bool := false
  resources : Bool := false
  tools : Bool := false
  tasks : Bool := false
  deriving DecidableEq, Repr

/-- `ServerCapabilitiesBuilder`: one `Option` per field (all `None` in
`Default::default()`), plus the reified tag state (phantom in Rust). -/
structure ServerCapabilitiesBuilder where
  experimental : Option ExperimentalCapabilities := none
  logging : Option JsonObject := none
  completions : Option JsonObject := none
  prompts : Option PromptsCapability := none
  resources : Option ResourcesCapability := none
  tools : Option ToolsCapability := none
  tasks : Option TasksCapability := none
  state : ServerCapabilitiesBuilderState := {}

instance : Inhabited ServerCapabilitiesBuilder := ⟨{}⟩

/-- `ServerCapabilitiesBuilder::build`: copy every field option into the
finished record (the tag state is only consumed, not read). -/
def ServerCapabilitiesBuilder.build (b : ServerCapabilitiesBuilder) : ServerCapabilities :=
  { experimental := b.experimental, logging := b.logging,
    completions := b.completions, prompts := b.prompts,
    resources := b.resources, tools := b.tools, tasks := b.tasks }

/-- `enable_experimental` (generated by the `builder!` macro): set the field
to its type's default and flip exactly its tag bit. -/
def ServerCapabilitiesBuilder.enable_experimental (b : ServerCapabilitiesBuilder) :
    ServerCapabilitiesBuilder :=
  { b with experimental := some default, state := { b.state with experimental := true } }

/-- `enable_experimental_with` (generated): set the field to the given value. -/
def ServerCapabilitiesBuilder.enable_experimental_with (b : ServerCapabilitiesBuilder)
    (v : ExperimentalCapabilities) : ServerCapabilitiesBuilder :=
  { b with experimental := some v, state := { b.state with experimental := true } }

/-- `enable_logging` (generated). -/
def ServerCapabilitiesBuilder.enable_logging (b : ServerCapabilitiesBuilder) :
    ServerCapabilitiesBuilder :=
  { b with logging := some default, state := { b.state with logging := true } }

/-- `enable_logging_with` (generated). -/
def ServerCapabilitiesBuilder.enable_logging_with (b : ServerCapabilitiesBuilder)
    (v : JsonObject) : ServerCapabilitiesBuilder :=
  { b with logging := some v, state := { b.state with logging := true } }

/-- `enable_completions` (generated). -/
def ServerCapabilitiesBuilder.enable_completions (b : ServerCapabilitiesBuilder) :
    ServerCapabilitiesBuilder :=
  { b with completions := some default, state := { b.state with completions := true } }

/-- `enable_completions_with` (generated). -/
def ServerCapabilitiesBuilder.enable_completions_with (b : ServerCapabilitiesBuilder)
    (v : JsonObject) : ServerCapabilitiesBuilder :=
  { b with completions := some v, state := { b.state with completions := true } }

/-- `enable_prompts` (generated). -/
def ServerCapabilitiesBuilder.enable_prompts (b : ServerCapabilitiesBuilder) :
    ServerCapabilitiesBuilder :=
  { b with prompts := some default, state := { b.state with prompts := true } }

/-- `enable_prompts_with` (generated). -/
def ServerCapabilitiesBuilder.enable_prompts_with (b : ServerCapabilitiesBuilder)
    (v : PromptsCapability) : ServerCapabilitiesBuilder :=
  { b with prompts := some v, state := { b.state with prompts := true } }

/-- `enable_resources` (generated). -/
def ServerCapabilitiesBuilder.enable_resources (b : ServerCapabilitiesBuilder) :
    ServerCapabilitiesBuilder :=
  { b with resources := some default, state := { b.state with resources := true } }

/-- `enable_resources_with` (generated). -/
def ServerCapabilitiesBuilder.enable_resources_with (b : ServerCapabilitiesBuilder)
    (v : ResourcesCapability) : ServerCapabilitiesBuilder :=
  { b with resources := some v, state := { b.state with resources := true } }

/-- `enable_tools` (generated). -/
def ServerCapabilitiesBuilder.enable_tools (b : ServerCapabilitiesBuilder) :
    ServerCapabilitiesBuilder :=
  { b with tools := some default, state := { b.state with tools := true } }

/-- `enable_tools_with` (generated). -/
def ServerCapabilitiesBuilder.enable_tools_with (b : ServerCapabilitiesBuilder)
    (v : ToolsCapability) : ServerCapabilitiesBuilder :=
  { b with tools := some v, state := { b.state with tools := true } }

/-- `enable_tasks` (generated). -/
def ServerCapabilitiesBuilder.enable_tasks (b : ServerCapabilitiesBuilder) :
    ServerCapabilitiesBuilder :=
  { b with tasks := some default, state := { b.state with tasks := true } }

/-- `enable_tasks_with` (generated). -/
def ServerCapabilitiesBuilder.enable_tasks_with (b : ServerCapabilitiesBuilder)
    (v : TasksCapability) : ServerCapabilitiesBuilder :=
  { b with tasks := some v, state := { b.state with tasks := true } }

/-- `enable_tool_list_changed` (hand-written `impl` on specializations with
the `tools` tag enabled): `if let Some(c) = self.tools.as_mut() {
c.list_changed = Some(true); } self` — the tag state is untouched. -/
def ServerCapabilitiesBuilder.enable_tool_list_changed (b : ServerCapabilitiesBuilder) :
    ServerCapabilitiesBuilder :=
  match b.tools with
  | some c => { b with tools := some { c with list_changed := some true } }
  | none => b

/-- `enable_prompts_list_changed` (requires the `prompts` tag enabled). -/
def ServerCapabilitiesBuilder.enable_prompts_list_changed (b : ServerCapabilitiesBuilder) :
    ServerCapabilitiesBuilder :=
  match b.prompts with
  | some c => { b with prompts := some { c with list_changed := some true } }
  | none => b

/-- `enable_resources_list_changed` (requires the `resources` tag enabled). -/
def ServerCapabilitiesBuilder.enable_resources_list_changed (b : ServerCapabilitiesBuilder) :
    ServerCapabilitiesBuilder :=
  match b.resources with
  | some c => { b with resources := some { c with list_changed := some true } }
  | none => b

/-- `enable_resources_subscribe` (requires the `resources` tag enabled). -/
def ServerCapabilitiesBuilder.enable_resources_subscribe (b : ServerCapabilitiesBuilder) :
    ServerCapabilitiesBuilder :=
  match b.resources with
  | some c => { b with resources := some { c with subscribe := some true } }
  | none => b

/-- Reification of `ClientCapabilitiesBuilderState<const EXPERIMENTAL: bool,
const ROOTS: bool, const SAMPLING: bool, const ELICITATION: bool,
const TASKS: bool>`. -/
structure ClientCapabilitiesBuilderState where
  experimental : Bool := false
  roots : Bool := false
  sampling : Bool := false
  elicitation : Bool := false
  tasks : Bool := false
  deriving DecidableEq, Repr

/-- `ClientCapabilitiesBuilder`. -/
structure ClientCapabilitiesBuilder where
  experimental : Option ExperimentalCapabilities := none
  roots : Option RootsCapabilities := none
  sampling : Option JsonObject := none
  elicitation : Option ElicitationCapability := none
  tasks : Option TasksCapability := none
  state : ClientCapabilitiesBuilderState := {}

instance : Inhabited ClientCapabilitiesBuilder := ⟨{}⟩

/-- `ClientCapabilitiesBuilder::build`. -/
def ClientCapabilitiesBuilder.build (b : ClientCapabilitiesBuilder) : ClientCapabilities :=
  { experimental := b.experimental, roots := b.roots, sampling := b.sampling,
    elicitation := b.elicitation, tasks := b.tasks }

/-- `enable_experimental` (generated) on the client builder. -/
def ClientCapabilitiesBuilder.enable_experimental (b : ClientCapabilitiesBuilder) :
    ClientCapabilitiesBuilder :=
  { b with experimental := some default, state := { b.state with experimental := true } }

/-- `enable_experimental_with` (generated). -/
def ClientCapabilitiesBuilder.enable_experimental_with (b : ClientCapabilitiesBuilder)
    (v : ExperimentalCapabilities) : ClientCapabilitiesBuilder :=
  { b with experimental := some v, state := { b.state with experimental := true } }

/-- `enable_roots` (generated). -/
def ClientCapabilitiesBuilder.enable_roots (b : ClientCapabilitiesBuilder) :
    ClientCapabilitiesBuilder :=
  { b with roots := some default, state := { b.state with roots := true } }

/-- `enable_roots_with` (generated). -/
def ClientCapabilitiesBuilder.enable_roots_with (b : ClientCapabilitiesBuilder)
    (v : RootsCapabilities) : ClientCapabilitiesBuilder :=
  { b with roots := some v, state := { b.state with roots := true } }

/-- `enable_sampling` (generated). -/
def ClientCapabilitiesBuilder.enable_sampling (b : ClientCapabilitiesBuilder) :
    ClientCapabilitiesBuilder :=
  { b with sampling := some default, state := { b.state with sampling := true } }

/-- `enable_sampling_with` (generated). -/
def ClientCapabilitiesBuilder.enable_sampling_with (b : ClientCapabilitiesBuilder)
    (v : JsonObject) : ClientCapabilitiesBuilder :=
  { b with sampling := some v, state := { b.state with sampling := true } }

/-- `enable_elicitation` (generated). -/
def ClientCapabilitiesBuilder.enable_elicitation (b : ClientCapabilitiesBuilder) :
    ClientCapabilitiesBuilder :=
  { b with elicitation := some default, state := { b.state with elicitation := true } }

/-- `enable_elicitation_with` (generated). -/
def ClientCapabilitiesBuilder.enable_elicitation_with (b : ClientCapabilitiesBuilder)
    (v : ElicitationCapability) : ClientCapabilitiesBuilder :=
  { b with elicitation := some v, state := { b.state with elicitation := true } }

/-- `enable_tasks` (generated) on the client builder. -/
def ClientCapabilitiesBuilder.enable_tasks (b : ClientCapabilitiesBuilder) :
    ClientCapabilitiesBuilder :=
  { b with tasks := some default, state := { b.state with tasks := true } }

/-- `enable_tasks_with` (generated). -/
def ClientCapabilitiesBuilder.enable_tasks_with (b : ClientCapabilitiesBuilder)
    (v : TasksCapability) : ClientCapabilitiesBuilder :=
  { b with tasks := some v, state := { b.state with tasks := true } }

/-- `enable_roots_list_changed` (requires the `roots` tag enabled; the body
only touches the stored option, the tag state is untouched). -/
def ClientCapabilitiesBuilder.enable_roots_list_changed (b : ClientCapabilitiesBuilder) :
    ClientCapabilitiesBuilder :=
  match b.roots with
  | some c => { b with roots := some { c with list_changed := some true } }
  | none => b

/-- `enable_elicitation_url_mode` (requires the `elicitation` tag enabled). -/
def ClientCapabilitiesBuilder.enable_elicitation_url_mode (b : ClientCapabilitiesBuilder) :
    ClientCapabilitiesBuilder :=
  match b.elicitation with
  | some c => { b with elicitation := some { c with url := some default } }
  | none => b

/-- `enable_elicitation_schema_validation` (deprecated; requires the
`elicitation` tag enabled). -/
def ClientCapabilitiesBuilder.enable_elicitation_schema_validation
    (b : ClientCapabilitiesBuilder) : ClientCapabilitiesBuilder :=
  match b.elicitation with
  | some c => { b with elicitation := some { c with schema_validation := some true } }
  | none => b

/-- `enable_elicitation_form_only` (requires the `elicitation` tag disabled;
installs `ElicitationCapability::form_only()` and flips the tag). -/
def ClientCapabilitiesBuilder.enable_elicitation_form_only (b : ClientCapabilitiesBuilder) :
    ClientCapabilitiesBuilder :=
  { b with elicitation := some ElicitationCapability.form_only,
           state := { b.state with elicitation := true } }

/-- `enable_elicitation_both` (requires the `elicitation` tag disabled;
installs `ElicitationCapability::both()` and flips the tag). -/
def ClientCapabilitiesBuilder.enable_elicitation_both (b : ClientCapabilitiesBuilder) :
    ClientCapabilitiesBuilder :=
  { b with elicitation := some ElicitationCapability.both,
           state := { b.state with elicitation := true } }

/-! Field indices.  The `builder!` macro is instantiated once per field of
the target record; quantifying over the field index lets one theorem speak
about every generated `enable_<field>` / `enable_<field>_with` pair. -/

/-- The seven fields of `ServerCapabilities`, in declaration order. -/
inductive ServerField where
  | experimental | logging | completions | prompts | resources | tools | tasks
  deriving DecidableEq, Repr

/-- The Rust type of each `ServerCapabilities` field. -/
def ServerField.fieldType : ServerField → Type
  | .experimental => ExperimentalCapabilities
  | .logging => JsonObject
  | .completions => JsonObject
  | .prompts => PromptsCapability
  | .resources => ResourcesCapability
  | .tools => ToolsCapability
  | .tasks => TasksCapability

/-- `Default::default()` of each `ServerCapabilities` field type. -/
def ServerField.defaultVal : (f : ServerField) → f.fieldType
  | .experimental => ([] : ExperimentalCapabilities)
  | .logging => ([] : JsonObject)
  | .completions => ([] : JsonObject)
  | .prompts => {}
  | .resources => {}
  | .tools => {}
  | .tasks => {}

/-- Read a field's stored option out of the server builder. -/
def ServerCapabilitiesBuilder.get (b : ServerCapabilitiesBuilder) :
    (f : ServerField) → Option f.fieldType
  | .experimental => b.experimental
  | .logging => b.logging
  | .completions => b.completions
  | .prompts => b.prompts
  | .resources => b.resources
  | .tools => b.tools
  | .tasks => b.tasks

/-- Read a field's tag bit out of the server builder's reified state. -/
def ServerCapabilitiesBuilder.tag (b : ServerCapabilitiesBuilder) : ServerField → Bool
  | .experimental => b.state.experimental
  | .logging => b.state.logging
  | .completions => b.state.completions
  | .prompts => b.state.prompts
  | .resources => b.state.resources
  | .tools => b.state.tools
  | .tasks => b.state.tasks

/-- Read a field out of a finished `ServerCapabilities` record. -/
def ServerCapabilities.get (r : ServerCapabilities) :
    (f : ServerField) → Option f.fieldType
  | .experimental => r.experimental
  | .logging => r.logging
  | .completions => r.completions
  | .prompts => r.prompts
  | .resources => r.resources
  | .tools => r.tools
  | .tasks => r.tasks

/-- Dispatch to the generated `enable_<field>` method for a field index. -/
def ServerCapabilitiesBuilder.enableField (b : ServerCapabilitiesBuilder) :
    ServerField → ServerCapabilitiesBuilder
  | .experimental => b.enable_experimental
  | .logging => b.enable_logging
  | .completions => b.enable_completions
  | .prompts => b.enable_prompts
  | .resources => b.enable_resources
  | .tools => b.enable_tools
  | .tasks => b.enable_tasks

/-- Dispatch to the generated `enable_<field>_with` method for a field index. -/
def ServerCapabilitiesBuilder.enableFieldWith (b : ServerCapabilitiesBuilder) :
    (f : ServerField) → f.fieldType → ServerCapabilitiesBuilder
  | .experimental, v => b.enable_experimental_with v
  | .logging, v => b.enable_logging_with v
  | .completions, v => b.enable_completions_with v
  | .prompts, v => b.enable_prompts_with v
  | .resources, v => b.enable_resources_with v
  | .tools, v => b.enable_tools_with v
  | .tasks, v => b.enable_tasks_with v

/-- The five fields of `ClientCapabilities`, in declaration order. -/
inductive ClientField where
  | experimental | roots | sampling | elicitation | tasks
  deriving DecidableEq, Repr

/-- The Rust type of each `ClientCapabilities` field. -/
def ClientField.fieldType : ClientField → Type
  | .experimental => ExperimentalCapabilities
  | .roots => RootsCapabilities
  | .sampling => JsonObject
  | .elicitation => ElicitationCapability
  | .tasks => TasksCapability

/-- `Default::default()` of each `ClientCapabilities` field type. -/
def ClientField.defaultVal : (f : ClientField) → f.fieldType
  | .experimental => ([] : ExperimentalCapabilities)
  | .roots => {}
  | .sampling => ([] : JsonObject)
  | .elicitation => {}
  | .tasks => {}

/-- Read a field's stored option out of the client builder. -/
def ClientCapabilitiesBuilder.get (b : ClientCapabilitiesBuilder) :
    (f : ClientField) → Option f.fieldType
  | .experimental => b.experimental
  | .roots => b.roots
  | .sampling => b.sampling
  | .elicitation => b.elicitation
  | .tasks => b.tasks

/-- Read a field's tag bit out of the client builder's reified state. -/
def ClientCapabilitiesBuilder.tag (b : ClientCapabilitiesBuilder) : ClientField → Bool
  | .experimental => b.state.experimental
  | .roots => b.state.roots
  | .sampling => b.state.sampling
  | .elicitation => b.state.elicitation
  | .tasks => b.state.tasks

/-- Read a field out of a finished `ClientCapabilities` record. -/
def ClientCapabilities.get (r : ClientCapabilities) :
    (f : ClientField) → Option f.fieldType
  | .experimental => r.experimental
  | .roots => r.roots
  | .sampling => r.sampling
  | .elicitation => r.elicitation
  | .tasks => r.tasks

/-- Dispatch to the generated `enable_<field>` method for a field index. -/
def ClientCapabilitiesBuilder.enableField (b : ClientCapabilitiesBuilder) :
    ClientField → ClientCapabilitiesBuilder
  | .experimental => b.enable_experimental
  | .roots => b.enable_roots
  | .sampling => b.enable_sampling
  | .elicitation => b.enable_elicitation
  | .tasks => b.enable_tasks

/-- Dispatch to the generated `enable_<field>_with` method for a field index. -/
def ClientCapabilitiesBuilder.enableFieldWith (b : ClientCapabilitiesBuilder) :
    (f : ClientField) → f.fieldType → ClientCapabilitiesBuilder
  | .experimental, v => b.enable_experimental_with v
  | .roots, v => b.enable_roots_with v
  | .sampling, v => b.enable_sampling_with v
  | .elicitation, v => b.enable_elicitation_with v
  | .tasks, v => b.enable_tasks_with v

/-! Operations and reachable builder states.  In Rust the availability of a
method is decided by the builder's type parameters; here each public method
becomes an `Op` constructor, `applyOp` its (total) effect, and `avail` the
condition the type system imposes on the receiving specialization. -/

/-- Every public operation on `ServerCapabilitiesBuilder`. -/
inductive ServerOp where
  | enable (f : ServerField)
  | enableWith (f : ServerField) (v : f.fieldType)
  | toolListChanged
  | promptsListChanged
  | resourcesListChanged
  | resourcesSubscribe

/-- Effect of a server builder operation. -/
def ServerCapabilitiesBuilder.applyOp (b : ServerCapabilitiesBuilder) :
    ServerOp → ServerCapabilitiesBuilder
  | .enable f => b.enableField f
  | .enableWith f v => b.enableFieldWith f v
  | .toolListChanged => b.enable_tool_list_changed
  | .promptsListChanged => b.enable_prompts_list_changed
  | .resourcesListChanged => b.enable_resources_list_changed
  | .resourcesSubscribe => b.enable_resources_subscribe

/-- The tag condition Rust's type system imposes for the operation to exist
on the receiver's specialization: `enable_*` need the field's tag `false`,
the refinement methods need their gate tag `true`. -/
def ServerOp.avail : ServerOp → ServerCapabilitiesBuilder → Prop
  | .enable f, b => b.tag f = false
  | .enableWith f _, b => b.tag f = false
  | .toolListChanged, b => b.state.tools = true
  | .promptsListChanged, b => b.state.prompts = true
  | .resourcesListChanged, b => b.state.resources = true
  | .resourcesSubscribe, b => b.state.resources = true

/-- Server builder states reachable from `Default::default()` through
operations whose typestate precondition holds. -/
inductive ServerReachable : ServerCapabilitiesBuilder → Prop where
  | init : ServerReachable {}
  | step {b : ServerCapabilitiesBuilder} (op : ServerOp) :
      ServerReachable b → op.avail b → ServerReachable (b.applyOp op)

/-- Every public operation on `ClientCapabilitiesBuilder`. -/
inductive ClientOp where
  | enable (f : ClientField)
  | enableWith (f : ClientField) (v : f.fieldType)
  | rootsListChanged
  | elicitationUrlMode
  | elicitationSchemaValidation
  | elicitationFormOnly
  | elicitationBoth

/-- Effect of a client builder operation. -/
def ClientCapabilitiesBuilder.applyOp (b : ClientCapabilitiesBuilder) :
    ClientOp → ClientCapabilitiesBuilder
  | .enable f => b.enableField f
  | .enableWith f v => b.enableFieldWith f v
  | .rootsListChanged => b.enable_roots_list_changed
  | .elicitationUrlMode => b.enable_elicitation_url_mode
  | .elicitationSchemaValidation => b.enable_elicitation_schema_validation
  | .elicitationFormOnly => b.enable_elicitation_form_only
  | .elicitationBoth => b.enable_elicitation_both

/-- Typestate availability of each client builder operation
(`enable_elicitation_form_only` / `_both` are defined on specializations
with the `elicitation` tag still `false`). -/
def ClientOp.avail : ClientOp → ClientCapabilitiesBuilder → Prop
  | .enable f, b => b.tag f = false
  | .enableWith f _, b => b.tag f = false
  | .rootsListChanged, b => b.state.roots = true
  | .elicitationUrlMode, b => b.state.elicitation = true
  | .elicitationSchemaValidation, b => b.state.elicitation = true
  | .elicitationFormOnly, b => b.state.elicitation = false
  | .elicitationBoth, b => b.state.elicitation = false

/-- Client builder states reachable from `Default::default()` through
operations whose typestate precondition holds. -/
inductive ClientReachable : ClientCapabilitiesBuilder → Prop where
  | init : ClientReachable {}
  | step {b : ClientCapabilitiesBuilder} (op : ClientOp) :
      ClientReachable b → op.avail b → ClientReachable (b.applyOp op)

/-! Enable-call sequences (for the "exactly the named fields are present"
property): an action is one `enable_<field>` or `enable_<field>_with` call;
a sequence is applied left to right. -/

/-- One `enable_<field>`/`enable_<field>_with` call on the server builder. -/
inductive ServerAction where
  | enable (f : ServerField)
  | enableWith (f : ServerField) (v : f.fieldType)

/-- The field a server action names. -/
def ServerAction.field : ServerAction → ServerField
  | .enable f => f
  | .enableWith f _ => f

/-- Apply one server enable action. -/
def ServerCapabilitiesBuilder.applyAction (b : ServerCapabilitiesBuilder) :
    ServerAction → ServerCapabilitiesBuilder
  | .enable f => b.enableField f
  | .enableWith f v => b.enableFieldWith f v

/-- Apply a sequence of server enable actions, left to right. -/
def ServerCapabilitiesBuilder.applyActions (b : ServerCapabilitiesBuilder)
    (acts : List ServerAction) : ServerCapabilitiesBuilder :=
  acts.foldl ServerCapabilitiesBuilder.applyAction b

/-- One `enable_<field>`/`enable_<field>_with` call on the client builder. -/
inductive ClientAction where
  | enable (f : ClientField)
  | enableWith (f : ClientField) (v : f.fieldType)

/-- The field a client action names. -/
def ClientAction.field : ClientAction → ClientField
  | .enable f => f
  | .enableWith f _ => f

/-- Apply one client enable action. -/
def ClientCapabilitiesBuilder.applyAction (b : ClientCapabilitiesBuilder) :
    ClientAction → ClientCapabilitiesBuilder
  | .enable f => b.enableField f
  | .enableWith f v => b.enableFieldWith f v

/-- Apply a sequence of client enable actions, left to right. -/
def ClientCapabilitiesBuilder.applyActions (b : ClientCapabilitiesBuilder)
    (acts : List ClientAction) : ClientCapabilitiesBuilder :=
  acts.foldl ClientCapabilitiesBuilder.applyAction b

/-! Basic lemmas about the accessors and the generated methods. -/

theorem ServerCapabilitiesBuilder.server_build_get (b : ServerCapabilitiesBuilder)
    (f : ServerField) : b.build.get f = b.get f := by
  cases f <;> rfl

theorem ClientCapabilitiesBuilder.client_build_get (b : ClientCapabilitiesBuilder)
    (f : ClientField) : b.build.get f = b.get f := by
  cases f <;> rfl

theorem ServerCapabilitiesBuilder.server_get_init (f : ServerField) :
    ({} : ServerCapabilitiesBuilder).get f = none := by
  cases f <;> rfl

theorem ClientCapabilitiesBuilder.client_get_init (f : ClientField) :
    ({} : ClientCapabilitiesBuilder).get f = none := by
  cases f <;> rfl

theorem ServerCapabilitiesBuilder.server_get_enableField_self (b : ServerCapabilitiesBuilder)
    (f : ServerField) : (b.enableField f).get f = some f.defaultVal := by
  cases f <;> rfl

theorem ServerCapabilitiesBuilder.server_get_enableField_ne (b : ServerCapabilitiesBuilder)
    {f g : ServerField} (h : g ≠ f) : (b.enableField f).get g = b.get g := by
  cases f <;> cases g <;> first | rfl | exact absurd rfl h

theorem ServerCapabilitiesBuilder.server_get_enableFieldWith_self (b : ServerCapabilitiesBuilder)
    (f : ServerField) (v : f.fieldType) : (b.enableFieldWith f v).get f = some v := by
  cases f <;> rfl

theorem ServerCapabilitiesBuilder.server_get_enableFieldWith_ne (b : ServerCapabilitiesBuilder)
    {f g : ServerField} (v : f.fieldType) (h : g ≠ f) :
    (b.enableFieldWith f v).get g = b.get g := by
  cases f <;> cases g <;> first | rfl | exact absurd rfl h

theorem ServerCapabilitiesBuilder.server_tag_enableField_self (b : ServerCapabilitiesBuilder)
    (f : ServerField) : (b.enableField f).tag f = true := by
  cases f <;> rfl

theorem ServerCapabilitiesBuilder.server_tag_enableField_ne (b : ServerCapabilitiesBuilder)
    {f g : ServerField} (h : g ≠ f) : (b.enableField f).tag g = b.tag g := by
  cases f <;> cases g <;> first | rfl | exact absurd rfl h

theorem ServerCapabilitiesBuilder.server_tag_enableFieldWith_self (b : ServerCapabilitiesBuilder)
    (f : ServerField) (v : f.fieldType) : (b.enableFieldWith f v).tag f = true := by
  cases f <;> rfl

theorem ServerCapabilitiesBuilder.server_tag_enableFieldWith_ne (b : ServerCapabilitiesBuilder)
    {f g : ServerField} (v : f.fieldType) (h : g ≠ f) :
    (b.enableFieldWith f v).tag g = b.tag g := by
  cases f <;> cases g <;> first | rfl | exact absurd rfl h

theorem ClientCapabilitiesBuilder.client_get_enableField_self (b : ClientCapabilitiesBuilder)
    (f : ClientField) : (b.enableField f).get f = some f.defaultVal := by
  cases f <;> rfl

theorem ClientCapabilitiesBuilder.client_get_enableField_ne (b : ClientCapabilitiesBuilder)
    {f g : ClientField} (h : g ≠ f) : (b.enableField f).get g = b.get g := by
  cases f <;> cases g <;> first | rfl | exact absurd rfl h

theorem ClientCapabilitiesBuilder.client_get_enableFieldWith_self (b : ClientCapabilitiesBuilder)
    (f : ClientField) (v : f.fieldType) : (b.enableFieldWith f v).get f = some v := by
  cases f <;> rfl

theorem ClientCapabilitiesBuilder.client_get_enableFieldWith_ne (b : ClientCapabilitiesBuilder)
    {f g : ClientField} (v : f.fieldType) (h : g ≠ f) :
    (b.enableFieldWith f v).get g = b.get g := by
  cases f <;> cases g <;> first | rfl | exact absurd rfl h

theorem ClientCapabilitiesBuilder.client_tag_enableField_self (b : ClientCapabilitiesBuilder)
    (f : ClientField) : (b.enableField f).tag f = true := by
  cases f <;> rfl

theorem ClientCapabilitiesBuilder.client_tag_enableField_ne (b : ClientCapabilitiesBuilder)
    {f g : ClientField} (h : g ≠ f) : (b.enableField f).tag g = b.tag g := by
  cases f <;> cases g <;> first | rfl | exact absurd rfl h

theorem ClientCapabilitiesBuilder.client_tag_enableFieldWith_self (b : ClientCapabilitiesBuilder)
    (f : ClientField) (v : f.fieldType) : (b.enableFieldWith f v).tag f = true := by
  cases f <;> rfl

theorem ClientCapabilitiesBuilder.client_tag_enableFieldWith_ne (b : ClientCapabilitiesBuilder)
    {f g : ClientField} (v : f.fieldType) (h : g ≠ f) :
    (b.enableFieldWith f v).tag g = b.tag g := by
  cases f <;> cases g <;> first | rfl | exact absurd rfl h

/-! Equations for the tag-gated refinement methods. -/

theorem ServerCapabilitiesBuilder.enable_tool_list_changed_none
    {b : ServerCapabilitiesBuilder} (h : b.tools = none) :
    b.enable_tool_list_changed = b := by
  unfold ServerCapabilitiesBuilder.enable_tool_list_changed
  rw [h]

theorem ServerCapabilitiesBuilder.enable_tool_list_changed_some
    {b : ServerCapabilitiesBuilder} {c : ToolsCapability} (h : b.tools = some c) :
    b.enable_tool_list_changed = { b with tools := some { c with list_changed := some true } } := by
  unfold ServerCapabilitiesBuilder.enable_tool_list_changed
  rw [h]

theorem ServerCapabilitiesBuilder.enable_prompts_list_changed_none
    {b : ServerCapabilitiesBuilder} (h : b.prompts = none) :
    b.enable_prompts_list_changed = b := by
  unfold ServerCapabilitiesBuilder.enable_prompts_list_changed
  rw [h]

theorem ServerCapabilitiesBuilder.enable_prompts_list_changed_some
    {b : ServerCapabilitiesBuilder} {c : PromptsCapability} (h : b.prompts = some c) :
    b.enable_prompts_list_changed
      = { b with prompts := some { c with list_changed := some true } } := by
  unfold ServerCapabilitiesBuilder.enable_prompts_list_changed
  rw [h]

theorem ServerCapabilitiesBuilder.enable_resources_list_changed_none
    {b : ServerCapabilitiesBuilder} (h : b.resources = none) :
    b.enable_resources_list_changed = b := by
  unfold ServerCapabilitiesBuilder.enable_resources_list_changed
  rw [h]

theorem ServerCapabilitiesBuilder.enable_resources_list_changed_some
    {b : ServerCapabilitiesBuilder} {c : ResourcesCapability} (h : b.resources = some c) :
    b.enable_resources_list_changed
      = { b with resources := some { c with list_changed := some true } } := by
  unfold ServerCapabilitiesBuilder.enable_resources_list_changed
  rw [h]

theorem ServerCapabilitiesBuilder.enable_resources_subscribe_none
    {b : ServerCapabilitiesBuilder} (h : b.resources = none) :
    b.enable_resources_subscribe = b := by
  unfold ServerCapabilitiesBuilder.enable_resources_subscribe
  rw [h]

theorem ServerCapabilitiesBuilder.enable_resources_subscribe_some
    {b : ServerCapabilitiesBuilder} {c : ResourcesCapability} (h : b.resources = some c) :
    b.enable_resources_subscribe
      = { b with resources := some { c with subscribe := some true } } := by
  unfold ServerCapabilitiesBuilder.enable_resources_subscribe
  rw [h]

theorem ClientCapabilitiesBuilder.enable_roots_list_changed_none
    {b : ClientCapabilitiesBuilder} (h : b.roots = none) :
    b.enable_roots_list_changed = b := by
  unfold ClientCapabilitiesBuilder.enable_roots_list_changed
  rw [h]

theorem ClientCapabilitiesBuilder.enable_roots_list_changed_some
    {b : ClientCapabilitiesBuilder} {c : RootsCapabilities} (h : b.roots = some c) :
    b.enable_roots_list_changed
      = { b with roots := some { c with list_changed := some true } } := by
  unfold ClientCapabilitiesBuilder.enable_roots_list_changed
  rw [h]

theorem ClientCapabilitiesBuilder.enable_elicitation_url_mode_none
    {b : ClientCapabilitiesBuilder} (h : b.elicitation = none) :
    b.enable_elicitation_url_mode = b := by
  unfold ClientCapabilitiesBuilder.enable_elicitation_url_mode
  rw [h]

theorem ClientCapabilitiesBuilder.enable_elicitation_url_mode_some
    {b : ClientCapabilitiesBuilder} {c : ElicitationCapability} (h : b.elicitation = some c) :
    b.enable_elicitation_url_mode
      = { b with elicitation := some { c with url := some default } } := by
  unfold ClientCapabilitiesBuilder.enable_elicitation_url_mode
  rw [h]

theorem ClientCapabilitiesBuilder.enable_elicitation_schema_validation_none
    {b : ClientCapabilitiesBuilder} (h : b.elicitation = none) :
    b.enable_elicitation_schema_validation = b := by
  unfold ClientCapabilitiesBuilder.enable_elicitation_schema_validation
  rw [h]

theorem ClientCapabilitiesBuilder.enable_elicitation_schema_validation_some
    {b : ClientCapabilitiesBuilder} {c : ElicitationCapability} (h : b.elicitation = some c) :
    b.enable_elicitation_schema_validation
      = { b with elicitation := some { c with schema_validation := some true } } := by
  unfold ClientCapabilitiesBuilder.enable_elicitation_schema_validation
  rw [h]

/-- C2: on any builder whose field `f` has its tag disabled,
`enable_<f>()` then `build()` makes field `f` present with its type's
default value, and `enable_<f>_with(v)` then `build()` makes it present
with exactly `v` — for every field of both the server and the client
builder. -/
theorem claim_C2_enable_then_build :
    (∀ (b : ServerCapabilitiesBuilder) (f : ServerField), b.tag f = false →
      (b.enableField f).build.get f = some f.defaultVal
        ∧ ∀ v : f.fieldType, (b.enableFieldWith f v).build.get f = some v)
    ∧ (∀ (b : ClientCapabilitiesBuilder) (f : ClientField), b.tag f = false →
      (b.enableField f).build.get f = some f.defaultVal
        ∧ ∀ v : f.fieldType, (b.enableFieldWith f v).build.get f = some v) := by
  constructor
  · intro b f _
    refine ⟨?_, fun v => ?_⟩
    · rw [ServerCapabilitiesBuilder.server_build_get, ServerCapabilitiesBuilder.server_get_enableField_self]
    · rw [ServerCapabilitiesBuilder.server_build_get, ServerCapabilitiesBuilder.server_get_enableFieldWith_self]
  · intro b f _
    refine ⟨?_, fun v => ?_⟩
    · rw [ClientCapabilitiesBuilder.client_build_get, ClientCapabilitiesBuilder.client_get_enableField_self]
    · rw [ClientCapabilitiesBuilder.client_build_get, ClientCapabilitiesBuilder.client_get_enableFieldWith_self]

/-- Witness for C2 at concrete inputs: the fresh server builder with
`tools`, and the fresh client builder with a supplied `roots` value. -/
theorem claim_C2_witness :
    (ServerCapabilitiesBuilder.enableField {} .tools).build.get .tools
        = some (ServerField.defaultVal .tools)
    ∧ (ClientCapabilitiesBuilder.enableFieldWith {} .roots
          { list_changed := some true }).build.get .roots
        = some { list_changed := some true } :=
  ⟨(claim_C2_enable_then_build.1 {} .tools rfl).1,
   (claim_C2_enable_then_build.2 {} .roots rfl).2 { list_changed := some true }⟩

/-- C4: on any builder whose field `f` has its tag disabled, `enable_<f>()`
sets exactly field `f` (to its type's default) and flips exactly `f`'s tag
bit, leaving every other field's stored option and every other tag bit
unchanged; likewise `enable_<f>_with(v)` with value `v`. -/
theorem claim_C4_frame_condition :
    (∀ (b : ServerCapabilitiesBuilder) (f : ServerField), b.tag f = false →
      ((b.enableField f).get f = some f.defaultVal
        ∧ (b.enableField f).tag f = true
        ∧ (∀ g, g ≠ f → (b.enableField f).get g = b.get g ∧ (b.enableField f).tag g = b.tag g))
      ∧ ∀ v : f.fieldType,
          (b.enableFieldWith f v).get f = some v
          ∧ (b.enableFieldWith f v).tag f = true
          ∧ ∀ g, g ≠ f →
              (b.enableFieldWith f v).get g = b.get g
              ∧ (b.enableFieldWith f v).tag g = b.tag g)
    ∧ (∀ (b : ClientCapabilitiesBuilder) (f : ClientField), b.tag f = false →
      ((b.enableField f).get f = some f.defaultVal
        ∧ (b.enableField f).tag f = true
        ∧ (∀ g, g ≠ f → (b.enableField f).get g = b.get g ∧ (b.enableField f).tag g = b.tag g))
      ∧ ∀ v : f.fieldType,
          (b.enableFieldWith f v).get f = some v
          ∧ (b.enableFieldWith f v).tag f = true
          ∧ ∀ g, g ≠ f →
              (b.enableFieldWith f v).get g = b.get g
              ∧ (b.enableFieldWith f v).tag g = b.tag g) := by
  constructor
  · intro b f _
    exact ⟨⟨b.server_get_enableField_self f, b.server_tag_enableField_self f,
            fun g hg => ⟨b.server_get_enableField_ne hg, b.server_tag_enableField_ne hg⟩⟩,
           fun v => ⟨b.server_get_enableFieldWith_self f v, b.server_tag_enableFieldWith_self f v,
            fun g hg => ⟨b.server_get_enableFieldWith_ne v hg,
              b.server_tag_enableFieldWith_ne v hg⟩⟩⟩
  · intro b f _
    exact ⟨⟨b.client_get_enableField_self f, b.client_tag_enableField_self f,
            fun g hg => ⟨b.client_get_enableField_ne hg, b.client_tag_enableField_ne hg⟩⟩,
           fun v => ⟨b.client_get_enableFieldWith_self f v, b.client_tag_enableFieldWith_self f v,
            fun g hg => ⟨b.client_get_enableFieldWith_ne v hg,
              b.client_tag_enableFieldWith_ne v hg⟩⟩⟩

/-- Witness for C4 at a concrete input: enabling `tools` on the fresh
server builder leaves `prompts`'s option and tag unchanged. -/
theorem claim_C4_witness :
    (ServerCapabilitiesBuilder.enableField {} .tools).get .prompts
        = ({} : ServerCapabilitiesBuilder).get .prompts
    ∧ (ServerCapabilitiesBuilder.enableField {} .tools).tag .prompts
        = ({} : ServerCapabilitiesBuilder).tag .prompts :=
  (claim_C4_frame_condition.1 {} .tools rfl).1.2.2 .prompts (by decide)

/-- C5: for two distinct fields `A` and `B` whose tags are both disabled,
enabling `A` then `B` and enabling `B` then `A` build the same record, on
either builder. -/
theorem claim_C5_commutativity :
    (∀ (b : ServerCapabilitiesBuilder) (A B : ServerField), A ≠ B →
        b.tag A = false → b.tag B = false →
        ((b.enableField A).enableField B).build = ((b.enableField B).enableField A).build)
    ∧ (∀ (b : ClientCapabilitiesBuilder) (A B : ClientField), A ≠ B →
        b.tag A = false → b.tag B = false →
        ((b.enableField A).enableField B).build = ((b.enableField B).enableField A).build) := by
  constructor
  · intro b A B hAB _ _
    cases A <;> cases B <;> first | exact absurd rfl hAB | rfl
  · intro b A B hAB _ _
    cases A <;> cases B <;> first | exact absurd rfl hAB | rfl

/-- Witness for C5 at a concrete input: `prompts` and `tools` on the fresh
server builder. -/
theorem claim_C5_witness :
    ((ServerCapabilitiesBuilder.enableField {} .prompts).enableField .tools).build
      = ((ServerCapabilitiesBuilder.enableField {} .tools).enableField .prompts).build :=
  claim_C5_commutativity.1 {} .prompts .tools (by decide) rfl rfl

/-- C6: from any server builder with the `resources` tag still disabled,
`enable_resources().enable_resources_subscribe()` builds a `resources`
capability with `subscribe = Some(true)` and `list_changed` absent, and a
subsequent `enable_resources_list_changed()` changes exactly the
`list_changed` sub-flag of `resources`, leaving `subscribe`, every other
field and every tag bit unchanged. -/
theorem claim_C6_refinement_isolation :
    ∀ b : ServerCapabilitiesBuilder, b.state.resources = false →
      ((b.enable_resources.enable_resources_subscribe).build.resources
          = some { subscribe := some true, list_changed := none })
      ∧ ((b.enable_resources.enable_resources_subscribe).enable_resources_list_changed
          = { b.enable_resources.enable_resources_subscribe with
              resources := some { subscribe := some true, list_changed := some true } }) :=
  fun _ _ => ⟨rfl, rfl⟩

/-- Witness for C6 at the fresh server builder. -/
theorem claim_C6_witness :
    ((ServerCapabilitiesBuilder.enable_resources {}).enable_resources_subscribe.build.resources
        = some { subscribe := some true, list_changed := none })
    ∧ ((ServerCapabilitiesBuilder.enable_resources
          {}).enable_resources_subscribe.enable_resources_list_changed
        = { (ServerCapabilitiesBuilder.enable_resources {}).enable_resources_subscribe with
            resources := some { subscribe := some true, list_changed := some true } }) :=
  claim_C6_refinement_isolation {} rfl

/-- C8: `ClientCapabilitiesBuilder::default().enable_elicitation_form_only()
.build().elicitation` is exactly the elicitation capability with
`form = Some(FormElicitationCapability::default())`, `url = None` and
`schema_validation = None`. -/
theorem claim_C8_form_only_scenario :
    (ClientCapabilitiesBuilder.enable_elicitation_form_only {}).build.elicitation
      = some { form := some {}, url := none, schema_validation := none } :=
  rfl

/-- C9: every operation of the subsystem is total: `build` returns a record
for every builder state without reading or changing the tag state, and
every enable/refinement operation yields a builder value for every input —
there is no error path. -/
theorem claim_C9_totality :
    (∀ (b : ServerCapabilitiesBuilder) (s : ServerCapabilitiesBuilderState),
        ServerCapabilitiesBuilder.build { b with state := s } = b.build)
    ∧ (∀ (b : ClientCapabilitiesBuilder) (s : ClientCapabilitiesBuilderState),
        ClientCapabilitiesBuilder.build { b with state := s } = b.build)
    ∧ (∀ (op : ServerOp) (b : ServerCapabilitiesBuilder), ∃ b', b.applyOp op = b')
    ∧ (∀ (op : ClientOp) (b : ClientCapabilitiesBuilder), ∃ b', b.applyOp op = b') :=
  ⟨fun _ _ => rfl, fun _ _ => rfl,
   fun op b => ⟨b.applyOp op, rfl⟩, fun op b => ⟨b.applyOp op, rfl⟩⟩

/-! Lemmas about enable-call sequences, for C1. -/

theorem ServerCapabilitiesBuilder.server_applyActions_cons (b : ServerCapabilitiesBuilder)
    (a : ServerAction) (acts : List ServerAction) :
    b.applyActions (a :: acts) = (b.applyAction a).applyActions acts :=
  rfl

theorem ClientCapabilitiesBuilder.client_applyActions_cons (b : ClientCapabilitiesBuilder)
    (a : ClientAction) (acts : List ClientAction) :
    b.applyActions (a :: acts) = (b.applyAction a).applyActions acts :=
  rfl

theorem ServerCapabilitiesBuilder.server_get_applyAction_ne (b : ServerCapabilitiesBuilder)
    {a : ServerAction} {f : ServerField} (h : f ≠ a.field) :
    (b.applyAction a).get f = b.get f := by
  cases a with
  | enable g => exact b.server_get_enableField_ne h
  | enableWith g v => exact b.server_get_enableFieldWith_ne v h

theorem ClientCapabilitiesBuilder.client_get_applyAction_ne (b : ClientCapabilitiesBuilder)
    {a : ClientAction} {f : ClientField} (h : f ≠ a.field) :
    (b.applyAction a).get f = b.get f := by
  cases a with
  | enable g => exact b.client_get_enableField_ne h
  | enableWith g v => exact b.client_get_enableFieldWith_ne v h

theorem ServerCapabilitiesBuilder.server_get_applyAction_self_isSome
    (b : ServerCapabilitiesBuilder) (a : ServerAction) :
    ((b.applyAction a).get a.field).isSome = true := by
  cases a with
  | enable g =>
    show ((b.enableField g).get g).isSome = true
    rw [b.server_get_enableField_self]
    rfl
  | enableWith g v =>
    show ((b.enableFieldWith g v).get g).isSome = true
    rw [b.server_get_enableFieldWith_self]
    rfl

theorem ClientCapabilitiesBuilder.client_get_applyAction_self_isSome
    (b : ClientCapabilitiesBuilder) (a : ClientAction) :
    ((b.applyAction a).get a.field).isSome = true := by
  cases a with
  | enable g =>
    show ((b.enableField g).get g).isSome = true
    rw [b.client_get_enableField_self]
    rfl
  | enableWith g v =>
    show ((b.enableFieldWith g v).get g).isSome = true
    rw [b.client_get_enableFieldWith_self]
    rfl

theorem ServerCapabilitiesBuilder.server_get_applyActions_not_mem (b : ServerCapabilitiesBuilder)
    (acts : List ServerAction) (f : ServerField)
    (h : f ∉ acts.map ServerAction.field) :
    (b.applyActions acts).get f = b.get f := by
  induction acts generalizing b with
  | nil => rfl
  | cons a rest ih =>
    rw [List.map_cons, List.mem_cons, not_or] at h
    rw [ServerCapabilitiesBuilder.server_applyActions_cons, ih _ h.2,
      b.server_get_applyAction_ne h.1]

theorem ClientCapabilitiesBuilder.client_get_applyActions_not_mem (b : ClientCapabilitiesBuilder)
    (acts : List ClientAction) (f : ClientField)
    (h : f ∉ acts.map ClientAction.field) :
    (b.applyActions acts).get f = b.get f := by
  induction acts generalizing b with
  | nil => rfl
  | cons a rest ih =>
    rw [List.map_cons, List.mem_cons, not_or] at h
    rw [ClientCapabilitiesBuilder.client_applyActions_cons, ih _ h.2,
      b.client_get_applyAction_ne h.1]

theorem ServerCapabilitiesBuilder.server_get_applyActions_mem (b : ServerCapabilitiesBuilder)
    (acts : List ServerAction) (f : ServerField)
    (h : f ∈ acts.map ServerAction.field) :
    ((b.applyActions acts).get f).isSome = true := by
  induction acts generalizing b with
  | nil => simp at h
  | cons a rest ih =>
    rw [ServerCapabilitiesBuilder.server_applyActions_cons]
    by_cases hm : f ∈ rest.map ServerAction.field
    · exact ih _ hm
    · rw [List.map_cons, List.mem_cons] at h
      rcases h with h | h
      · subst h
        rw [ServerCapabilitiesBuilder.server_get_applyActions_not_mem _ _ _ hm]
        exact b.server_get_applyAction_self_isSome a
      · exact absurd h hm

theorem ClientCapabilitiesBuilder.client_get_applyActions_mem (b : ClientCapabilitiesBuilder)
    (acts : List ClientAction) (f : ClientField)
    (h : f ∈ acts.map ClientAction.field) :
    ((b.applyActions acts).get f).isSome = true := by
  induction acts generalizing b with
  | nil => simp at h
  | cons a rest ih =>
    rw [ClientCapabilitiesBuilder.client_applyActions_cons]
    by_cases hm : f ∈ rest.map ClientAction.field
    · exact ih _ hm
    · rw [List.map_cons, List.mem_cons] at h
      rcases h with h | h
      · subst h
        rw [ClientCapabilitiesBuilder.client_get_applyActions_not_mem _ _ _ hm]
        exact b.client_get_applyAction_self_isSome a
      · exact absurd h hm

/-- C1: for any typestate-legal sequence of `enable_<field>` /
`enable_<field>_with` calls on the freshly created all-disabled builder
(legality = no field enabled twice, i.e. the named fields are pairwise
distinct), `build()` has exactly the named fields present and all others
absent; and the fresh builder's `build()` is the record type's all-absent
default — for both the server and the client builder. -/
theorem claim_C1_exactly_named_fields :
    (∀ acts : List ServerAction, (acts.map ServerAction.field).Nodup →
      ∀ f : ServerField,
        (((ServerCapabilitiesBuilder.applyActions {} acts).build.get f).isSome
          ↔ f ∈ acts.map ServerAction.field))
    ∧ (∀ acts : List ClientAction, (acts.map ClientAction.field).Nodup →
      ∀ f : ClientField,
        (((ClientCapabilitiesBuilder.applyActions {} acts).build.get f).isSome
          ↔ f ∈ acts.map ClientAction.field))
    ∧ ServerCapabilitiesBuilder.build {} = (default : ServerCapabilities)
    ∧ ClientCapabilitiesBuilder.build {} = (default : ClientCapabilities) := by
  refine ⟨fun acts _ f => ?_, fun acts _ f => ?_, rfl, rfl⟩
  · rw [ServerCapabilitiesBuilder.server_build_get]
    constructor
    · intro hs
      by_contra hm
      rw [ServerCapabilitiesBuilder.server_get_applyActions_not_mem _ _ _ hm,
        ServerCapabilitiesBuilder.server_get_init] at hs
      exact Bool.false_ne_true hs
    · intro hm
      exact ServerCapabilitiesBuilder.server_get_applyActions_mem _ _ _ hm
  · rw [ClientCapabilitiesBuilder.client_build_get]
    constructor
    · intro hs
      by_contra hm
      rw [ClientCapabilitiesBuilder.client_get_applyActions_not_mem _ _ _ hm,
        ClientCapabilitiesBuilder.client_get_init] at hs
      exact Bool.false_ne_true hs
    · intro hm
      exact ClientCapabilitiesBuilder.client_get_applyActions_mem _ _ _ hm

/-- Witness for C1 at a concrete sequence: enabling `logging` and `tools`
on the fresh server builder makes `tools` present and leaves `prompts`
absent. -/
theorem claim_C1_witness :
    (((ServerCapabilitiesBuilder.applyActions {}
          [.enable .logging, .enable .tools]).build.get .tools).isSome
        ↔ .tools ∈ ([ServerAction.enable .logging,
            ServerAction.enable .tools].map ServerAction.field))
    ∧ ((((ServerCapabilitiesBuilder.applyActions {}
          [.enable .logging, .enable .tools]).build.get .prompts).isSome
        ↔ .prompts ∈ ([ServerAction.enable .logging,
            ServerAction.enable .tools].map ServerAction.field))) :=
  ⟨claim_C1_exactly_named_fields.1 [.enable .logging, .enable .tools] (by decide) .tools,
   claim_C1_exactly_named_fields.1 [.enable .logging, .enable .tools] (by decide) .prompts⟩

/-! The tag/presence invariant on reachable builder states, for C3. -/

theorem ServerReachable.server_tag_iff_isSome {b : ServerCapabilitiesBuilder}
    (hb : ServerReachable b) : ∀ f, b.tag f = (b.get f).isSome := by
  induction hb with
  | init => intro f; cases f <;> rfl
  | @step b op _ hav ih =>
    cases op with
    | enable f0 =>
      intro f
      show (b.enableField f0).tag f = ((b.enableField f0).get f).isSome
      by_cases hf : f = f0
      · subst hf
        rw [b.server_tag_enableField_self, b.server_get_enableField_self]
        rfl
      · rw [b.server_tag_enableField_ne hf, b.server_get_enableField_ne hf]
        exact ih f
    | enableWith f0 v =>
      intro f
      show (b.enableFieldWith f0 v).tag f = ((b.enableFieldWith f0 v).get f).isSome
      by_cases hf : f = f0
      · subst hf
        rw [b.server_tag_enableFieldWith_self, b.server_get_enableFieldWith_self]
        rfl
      · rw [b.server_tag_enableFieldWith_ne v hf, b.server_get_enableFieldWith_ne v hf]
        exact ih f
    | toolListChanged =>
      intro f
      show b.enable_tool_list_changed.tag f = (b.enable_tool_list_changed.get f).isSome
      rcases hx : b.tools with _ | c
      · rw [ServerCapabilitiesBuilder.enable_tool_list_changed_none hx]
        exact ih f
      · rw [ServerCapabilitiesBuilder.enable_tool_list_changed_some hx]
        cases f with
        | tools => exact hav
        | experimental => exact ih .experimental
        | logging => exact ih .logging
        | completions => exact ih .completions
        | prompts => exact ih .prompts
        | resources => exact ih .resources
        | tasks => exact ih .tasks
    | promptsListChanged =>
      intro f
      show b.enable_prompts_list_changed.tag f = (b.enable_prompts_list_changed.get f).isSome
      rcases hx : b.prompts with _ | c
      · rw [ServerCapabilitiesBuilder.enable_prompts_list_changed_none hx]
        exact ih f
      · rw [ServerCapabilitiesBuilder.enable_prompts_list_changed_some hx]
        cases f with
        | prompts => exact hav
        | experimental => exact ih .experimental
        | logging => exact ih .logging
        | completions => exact ih .completions
        | resources => exact ih .resources
        | tools => exact ih .tools
        | tasks => exact ih .tasks
    | resourcesListChanged =>
      intro f
      show b.enable_resources_list_changed.tag f
          = (b.enable_resources_list_changed.get f).isSome
      rcases hx : b.resources with _ | c
      · rw [ServerCapabilitiesBuilder.enable_resources_list_changed_none hx]
        exact ih f
      · rw [ServerCapabilitiesBuilder.enable_resources_list_changed_some hx]
        cases f with
        | resources => exact hav
        | experimental => exact ih .experimental
        | logging => exact ih .logging
        | completions => exact ih .completions
        | prompts => exact ih .prompts
        | tools => exact ih .tools
        | tasks => exact ih .tasks
    | resourcesSubscribe =>
      intro f
      show b.enable_resources_subscribe.tag f = (b.enable_resources_subscribe.get f).isSome
      rcases hx : b.resources with _ | c
      · rw [ServerCapabilitiesBuilder.enable_resources_subscribe_none hx]
        exact ih f
      · rw [ServerCapabilitiesBuilder.enable_resources_subscribe_some hx]
        cases f with
        | resources => exact hav
        | experimental => exact ih .experimental
        | logging => exact ih .logging
        | completions => exact ih .completions
        | prompts => exact ih .prompts
        | tools => exact ih .tools
        | tasks => exact ih .tasks

theorem ClientReachable.client_tag_iff_isSome {b : ClientCapabilitiesBuilder}
    (hb : ClientReachable b) : ∀ f, b.tag f = (b.get f).isSome := by
  induction hb with
  | init => intro f; cases f <;> rfl
  | @step b op _ hav ih =>
    cases op with
    | enable f0 =>
      intro f
      show (b.enableField f0).tag f = ((b.enableField f0).get f).isSome
      by_cases hf : f = f0
      · subst hf
        rw [b.client_tag_enableField_self, b.client_get_enableField_self]
        rfl
      · rw [b.client_tag_enableField_ne hf, b.client_get_enableField_ne hf]
        exact ih f
    | enableWith f0 v =>
      intro f
      show (b.enableFieldWith f0 v).tag f = ((b.enableFieldWith f0 v).get f).isSome
      by_cases hf : f = f0
      · subst hf
        rw [b.client_tag_enableFieldWith_self, b.client_get_enableFieldWith_self]
        rfl
      · rw [b.client_tag_enableFieldWith_ne v hf, b.client_get_enableFieldWith_ne v hf]
        exact ih f
    | rootsListChanged =>
      intro f
      show b.enable_roots_list_changed.tag f = (b.enable_roots_list_changed.get f).isSome
      rcases hx : b.roots with _ | c
      · rw [ClientCapabilitiesBuilder.enable_roots_list_changed_none hx]
        exact ih f
      · rw [ClientCapabilitiesBuilder.enable_roots_list_changed_some hx]
        cases f with
        | roots => exact hav
        | experimental => exact ih .experimental
        | sampling => exact ih .sampling
        | elicitation => exact ih .elicitation
        | tasks => exact ih .tasks
    | elicitationUrlMode =>
      intro f
      show b.enable_elicitation_url_mode.tag f = (b.enable_elicitation_url_mode.get f).isSome
      rcases hx : b.elicitation with _ | c
      · rw [ClientCapabilitiesBuilder.enable_elicitation_url_mode_none hx]
        exact ih f
      · rw [ClientCapabilitiesBuilder.enable_elicitation_url_mode_some hx]
        cases f with
        | elicitation => exact hav
        | experimental => exact ih .experimental
        | roots => exact ih .roots
        | sampling => exact ih .sampling
        | tasks => exact ih .tasks
    | elicitationSchemaValidation =>
      intro f
      show b.enable_elicitation_schema_validation.tag f
          = (b.enable_elicitation_schema_validation.get f).isSome
      rcases hx : b.elicitation with _ | c
      · rw [ClientCapabilitiesBuilder.enable_elicitation_schema_validation_none hx]
        exact ih f
      · rw [ClientCapabilitiesBuilder.enable_elicitation_schema_validation_some hx]
        cases f with
        | elicitation => exact hav
        | experimental => exact ih .experimental
        | roots => exact ih .roots
        | sampling => exact ih .sampling
        | tasks => exact ih .tasks
    | elicitationFormOnly =>
      intro f
      show b.enable_elicitation_form_only.tag f
          = (b.enable_elicitation_form_only.get f).isSome
      cases f with
      | elicitation => rfl
      | experimental => exact ih .experimental
      | roots => exact ih .roots
      | sampling => exact ih .sampling
      | tasks => exact ih .tasks
    | elicitationBoth =>
      intro f
      show b.enable_elicitation_both.tag f = (b.enable_elicitation_both.get f).isSome
      cases f with
      | elicitation => rfl
      | experimental => exact ih .experimental
      | roots => exact ih .roots
      | sampling => exact ih .sampling
      | tasks => exact ih .tasks

/-- C3: in every builder state reachable from the default all-disabled
builder through the public operations (each applied only when its typestate
precondition holds), a field's tag bit reads enabled exactly when the
field's stored option is present — so no reachable state stores a sub-flag
inside an absent parent capability. -/
theorem claim_C3_tag_invariant :
    (∀ b : ServerCapabilitiesBuilder, ServerReachable b →
      ∀ f, b.tag f = (b.get f).isSome)
    ∧ (∀ b : ClientCapabilitiesBuilder, ClientReachable b →
      ∀ f, b.tag f = (b.get f).isSome) :=
  ⟨fun _ hb => hb.server_tag_iff_isSome, fun _ hb => hb.client_tag_iff_isSome⟩

/-- Witness for C3 at a concrete reachable state: the fresh server builder
after `enable_tools()`. -/
theorem claim_C3_witness :
    (ServerCapabilitiesBuilder.applyOp {} (.enable .tools)).tag .tools
      = ((ServerCapabilitiesBuilder.applyOp {} (.enable .tools)).get .tools).isSome :=
  claim_C3_tag_invariant.1 _ (ServerReachable.step (.enable .tools) ServerReachable.init rfl)
    .tools

/-! The tag-gated refinement methods as a family, for C10. -/

/-- The four tag-gated refinement methods of the server builder. -/
inductive ServerRefinement where
  | toolListChanged | promptsListChanged | resourcesListChanged | resourcesSubscribe
  deriving DecidableEq, Repr

/-- Apply a server refinement method. -/
def ServerCapabilitiesBuilder.applyRefinement (b : ServerCapabilitiesBuilder) :
    ServerRefinement → ServerCapabilitiesBuilder
  | .toolListChanged => b.enable_tool_list_changed
  | .promptsListChanged => b.enable_prompts_list_changed
  | .resourcesListChanged => b.enable_resources_list_changed
  | .resourcesSubscribe => b.enable_resources_subscribe

/-- Whether the stored option of the field a server refinement method
mutates is present. -/
def ServerRefinement.governedIsSome : ServerRefinement → ServerCapabilitiesBuilder → Bool
  | .toolListChanged, b => b.tools.isSome
  | .promptsListChanged, b => b.prompts.isSome
  | .resourcesListChanged, b => b.resources.isSome
  | .resourcesSubscribe, b => b.resources.isSome

/-- The three tag-gated refinement methods of the client builder. -/
inductive ClientRefinement where
  | rootsListChanged | elicitationUrlMode | elicitationSchemaValidation
  deriving DecidableEq, Repr

/-- Apply a client refinement method. -/
def ClientCapabilitiesBuilder.applyRefinement (b : ClientCapabilitiesBuilder) :
    ClientRefinement → ClientCapabilitiesBuilder
  | .rootsListChanged => b.enable_roots_list_changed
  | .elicitationUrlMode => b.enable_elicitation_url_mode
  | .elicitationSchemaValidation => b.enable_elicitation_schema_validation

/-- Whether the stored option of the field a client refinement method
mutates is present. -/
def ClientRefinement.governedIsSome : ClientRefinement → ClientCapabilitiesBuilder → Bool
  | .rootsListChanged, b => b.roots.isSome
  | .elicitationUrlMode, b => b.elicitation.isSome
  | .elicitationSchemaValidation, b => b.elicitation.isSome

/-- C10: each tag-gated refinement method returns the builder completely
unchanged when the governed field's stored option is `None` (a state
expressible because the builder fields are public), and is idempotent when
the option is `Some`. -/
theorem claim_C10_refinement_noop_idempotent :
    (∀ (r : ServerRefinement) (b : ServerCapabilitiesBuilder),
        r.governedIsSome b = false → b.applyRefinement r = b)
    ∧ (∀ (r : ServerRefinement) (b : ServerCapabilitiesBuilder),
        r.governedIsSome b = true →
          (b.applyRefinement r).applyRefinement r = b.applyRefinement r)
    ∧ (∀ (r : ClientRefinement) (b : ClientCapabilitiesBuilder),
        r.governedIsSome b = false → b.applyRefinement r = b)
    ∧ (∀ (r : ClientRefinement) (b : ClientCapabilitiesBuilder),
        r.governedIsSome b = true →
          (b.applyRefinement r).applyRefinement r = b.applyRefinement r) := by
  refine ⟨fun r b h => ?_, fun r b h => ?_, fun r b h => ?_, fun r b h => ?_⟩
  · cases r with
    | toolListChanged =>
      show b.enable_tool_list_changed = b
      rcases hx : b.tools with _ | c
      · exact ServerCapabilitiesBuilder.enable_tool_list_changed_none hx
      · simp [ServerRefinement.governedIsSome, ClientRefinement.governedIsSome, hx] at h
    | promptsListChanged =>
      show b.enable_prompts_list_changed = b
      rcases hx : b.prompts with _ | c
      · exact ServerCapabilitiesBuilder.enable_prompts_list_changed_none hx
      · simp [ServerRefinement.governedIsSome, ClientRefinement.governedIsSome, hx] at h
    | resourcesListChanged =>
      show b.enable_resources_list_changed = b
      rcases hx : b.resources with _ | c
      · exact ServerCapabilitiesBuilder.enable_resources_list_changed_none hx
      · simp [ServerRefinement.governedIsSome, ClientRefinement.governedIsSome, hx] at h
    | resourcesSubscribe =>
      show b.enable_resources_subscribe = b
      rcases hx : b.resources with _ | c
      · exact ServerCapabilitiesBuilder.enable_resources_subscribe_none hx
      · simp [ServerRefinement.governedIsSome, ClientRefinement.governedIsSome, hx] at h
  · cases r with
    | toolListChanged =>
      have h' : b.tools.isSome = true := h
      obtain ⟨c, hc⟩ := Option.isSome_iff_exists.mp h'
      show b.enable_tool_list_changed.enable_tool_list_changed = b.enable_tool_list_changed
      rw [ServerCapabilitiesBuilder.enable_tool_list_changed_some hc, ServerCapabilitiesBuilder.enable_tool_list_changed_some rfl]
    | promptsListChanged =>
      have h' : b.prompts.isSome = true := h
      obtain ⟨c, hc⟩ := Option.isSome_iff_exists.mp h'
      show b.enable_prompts_list_changed.enable_prompts_list_changed = b.enable_prompts_list_changed
      rw [ServerCapabilitiesBuilder.enable_prompts_list_changed_some hc, ServerCapabilitiesBuilder.enable_prompts_list_changed_some rfl]
    | resourcesListChanged =>
      have h' : b.resources.isSome = true := h
      obtain ⟨c, hc⟩ := Option.isSome_iff_exists.mp h'
      show b.enable_resources_list_changed.enable_resources_list_changed = b.enable_resources_list_changed
      rw [ServerCapabilitiesBuilder.enable_resources_list_changed_some hc, ServerCapabilitiesBuilder.enable_resources_list_changed_some rfl]
    | resourcesSubscribe =>
      have h' : b.resources.isSome = true := h
      obtain ⟨c, hc⟩ := Option.isSome_iff_exists.mp h'
      show b.enable_resources_subscribe.enable_resources_subscribe = b.enable_resources_subscribe
      rw [ServerCapabilitiesBuilder.enable_resources_subscribe_some hc, ServerCapabilitiesBuilder.enable_resources_subscribe_some rfl]
  · cases r with
    | rootsListChanged =>
      show b.enable_roots_list_changed = b
      rcases hx : b.roots with _ | c
      · exact ClientCapabilitiesBuilder.enable_roots_list_changed_none hx
      · simp [ServerRefinement.governedIsSome, ClientRefinement.governedIsSome, hx] at h
    | elicitationUrlMode =>
      show b.enable_elicitation_url_mode = b
      rcases hx : b.elicitation with _ | c
      · exact ClientCapabilitiesBuilder.enable_elicitation_url_mode_none hx
      · simp [ServerRefinement.governedIsSome, ClientRefinement.governedIsSome, hx] at h
    | elicitationSchemaValidation =>
      show b.enable_elicitation_schema_validation = b
      rcases hx : b.elicitation with _ | c
      · exact ClientCapabilitiesBuilder.enable_elicitation_schema_validation_none hx
      · simp [ServerRefinement.governedIsSome, ClientRefinement.governedIsSome, hx] at h
  · cases r with
    | rootsListChanged =>
      have h' : b.roots.isSome = true := h
      obtain ⟨c, hc⟩ := Option.isSome_iff_exists.mp h'
      show b.enable_roots_list_changed.enable_roots_list_changed = b.enable_roots_list_changed
      rw [ClientCapabilitiesBuilder.enable_roots_list_changed_some hc, ClientCapabilitiesBuilder.enable_roots_list_changed_some rfl]
    | elicitationUrlMode =>
      have h' : b.elicitation.isSome = true := h
      obtain ⟨c, hc⟩ := Option.isSome_iff_exists.mp h'
      show b.enable_elicitation_url_mode.enable_elicitation_url_mode = b.enable_elicitation_url_mode
      rw [ClientCapabilitiesBuilder.enable_elicitation_url_mode_some hc, ClientCapabilitiesBuilder.enable_elicitation_url_mode_some rfl]
    | elicitationSchemaValidation =>
      have h' : b.elicitation.isSome = true := h
      obtain ⟨c, hc⟩ := Option.isSome_iff_exists.mp h'
      show b.enable_elicitation_schema_validation.enable_elicitation_schema_validation = b.enable_elicitation_schema_validation
      rw [ClientCapabilitiesBuilder.enable_elicitation_schema_validation_some hc, ClientCapabilitiesBuilder.enable_elicitation_schema_validation_some rfl]

/-- Witness for C10 at concrete inputs: `enable_tool_list_changed` on the
fresh server builder (where `tools` is `None`) is a no-op, and is
idempotent on a builder where `tools` is present. -/
theorem claim_C10_witness :
    (ServerCapabilitiesBuilder.applyRefinement {} .toolListChanged = {})
    ∧ ((ServerCapabilitiesBuilder.applyRefinement { tools := some {} }
          .toolListChanged).applyRefinement .toolListChanged
        = ServerCapabilitiesBuilder.applyRefinement { tools := some {} } .toolListChanged) :=
  ⟨claim_C10_refinement_noop_idempotent.1 .toolListChanged {} rfl,
   claim_C10_refinement_noop_idempotent.2.1 .toolListChanged { tools := some {} } rfl⟩

/-! Serde serialization, for C7.  Every capability struct derives
`Serialize`/`Deserialize` with `#[serde(rename_all = "camelCase")]` (the
field names of `ClientCapabilities` are single words, where the rename is
the identity) and `#[serde(skip_serializing_if = "Option::is_none")]` on
every field: a present field is emitted under its lowerCamelCase key, an
absent one is omitted.  Deserialization reads each field by key (missing
key or `null` gives `None`, as serde does for `Option`), ignoring unknown
keys. -/

/-- Top-level keys of a serialized object. -/
def Json.keys : Json → List String
  | .obj l => l.map Prod.fst
  | _ => []

/-- The entries a single `Option` field contributes:
`#[serde(skip_serializing_if = "Option::is_none")]`. -/
def optEntry (k : String) : Option Json → List (String × Json)
  | some j => [(k, j)]
  | none => []

/-- serde's `Option<T>` deserialization from a present value: `null` is
`None`, anything else must parse as `T`. -/
def decodeOpt (p : Json → Option α) : Json → Option (Option α)
  | .null => some none
  | .bool b => (p (.bool b)).map some
  | .num n => (p (.num n)).map some
  | .str s => (p (.str s)).map some
  | .arr a => (p (.arr a)).map some
  | .obj o => (p (.obj o)).map some

/-- Read one `Option` field of a struct out of a serialized object:
missing key gives `None`, otherwise decode the value. -/
def getOptField (l : List (String × Json)) (k : String) (p : Json → Option α) :
    Option (Option α) :=
  match l.lookup k with
  | none => some none
  | some j => decodeOpt p j

/-- Serialize a `JsonObject` field value (`serde_json::Map` is emitted
as-is). -/
def jsonObjectToJson (o : JsonObject) : Json := .obj o

/-- Deserialize a `JsonObject` field value. -/
def jsonObjectFromJson : Json → Option JsonObject
  | .obj l => some l
  | _ => none

/-- Serialize an `ExperimentalCapabilities` map (`BTreeMap<String,
JsonObject>`) as an object of objects. -/
def expToJson (m : ExperimentalCapabilities) : Json :=
  .obj (m.map fun p => (p.1, Json.obj p.2))

/-- Deserialize an `ExperimentalCapabilities` map: every value must be an
object. -/
def expFromJson : Json → Option ExperimentalCapabilities
  | .obj l =>
    l.mapM fun p =>
      match p.2 with
      | .obj o => some (p.1, o)
      | _ => none
  | _ => none

/-- Serialize a `TaskRequestMap` (`BTreeMap<String, bool>`). -/
def taskMapToJson (m : TaskRequestMap) : Json :=
  .obj (m.map fun p => (p.1, Json.bool p.2))

/-- Deserialize a `TaskRequestMap`: every value must be a boolean. -/
def taskMapFromJson : Json → Option TaskRequestMap
  | .obj l =>
    l.mapM fun p =>
      match p.2 with
      | .bool b => some (p.1, b)
      | _ => none
  | _ => none

/-- Deserialize a `bool`. -/
def boolFromJson : Json → Option Bool
  | .bool b => some b
  | _ => none

/-- `Serialize` for `PromptsCapability` (`list_changed` renames to
`listChanged`). -/
def PromptsCapability.toJson (c : PromptsCapability) : Json :=
  .obj (optEntry "listChanged" (c.list_changed.map Json.bool))

/-- `Deserialize` for `PromptsCapability`. -/
def PromptsCapability.fromJson : Json → Option PromptsCapability
  | .obj l => (getOptField l "listChanged" boolFromJson).map fun lc => { list_changed := lc }
  | _ => none

/-- `Serialize` for `ResourcesCapability`. -/
def ResourcesCapability.toJson (c : ResourcesCapability) : Json :=
  .obj (optEntry "subscribe" (c.subscribe.map Json.bool)
    ++ optEntry "listChanged" (c.list_changed.map Json.bool))

/-- `Deserialize` for `ResourcesCapability`. -/
def ResourcesCapability.fromJson : Json → Option ResourcesCapability
  | .obj l => do
    let s ← getOptField l "subscribe" boolFromJson
    let lc ← getOptField l "listChanged" boolFromJson
    pure { subscribe := s, list_changed := lc }
  | _ => none

/-- `Serialize` for `ToolsCapability`. -/
def ToolsCapability.toJson (c : ToolsCapability) : Json :=
  .obj (optEntry "listChanged" (c.list_changed.map Json.bool))

/-- `Deserialize` for `ToolsCapability`. -/
def ToolsCapability.fromJson : Json → Option ToolsCapability
  | .obj l => (getOptField l "listChanged" boolFromJson).map fun lc => { list_changed := lc }
  | _ => none

/-- `Serialize` for `RootsCapabilities`. -/
def RootsCapabilities.toJson (c : RootsCapabilities) : Json :=
  .obj (optEntry "listChanged" (c.list_changed.map Json.bool))

/-- `Deserialize` for `RootsCapabilities`. -/
def RootsCapabilities.fromJson : Json → Option RootsCapabilities
  | .obj l => (getOptField l "listChanged" boolFromJson).map fun lc => { list_changed := lc }
  | _ => none

/-- `Serialize` for `TasksCapability` (field names `requests`, `list`,
`cancel` are single words; camelCase rename is the identity). -/
def TasksCapability.toJson (c : TasksCapability) : Json :=
  .obj (optEntry "requests" (c.requests.map taskMapToJson)
    ++ optEntry "list" ((c.list).map Json.bool)
    ++ optEntry "cancel" (c.cancel.map Json.bool))

/-- `Deserialize` for `TasksCapability`. -/
def TasksCapability.fromJson : Json → Option TasksCapability
  | .obj l => do
    let rq ← getOptField l "requests" taskMapFromJson
    let ls ← getOptField l "list" boolFromJson
    let cl ← getOptField l "cancel" boolFromJson
    pure { requests := rq, list := ls, cancel := cl }
  | _ => none

/-- `Serialize` for `FormElicitationCapability` (`schema_validation`
renames to `schemaValidation`). -/
def FormElicitationCapability.toJson (c : FormElicitationCapability) : Json :=
  .obj (optEntry "schemaValidation" (c.schema_validation.map Json.bool))

/-- `Deserialize` for `FormElicitationCapability`. -/
def FormElicitationCapability.fromJson : Json → Option FormElicitationCapability
  | .obj l =>
    (getOptField l "schemaValidation" boolFromJson).map fun sv => { schema_validation := sv }
  | _ => none

/-- `Serialize` for `UrlElicitationCapability` (no fields: the empty
object). -/
def UrlElicitationCapability.toJson (_ : UrlElicitationCapability) : Json :=
  .obj []

/-- `Deserialize` for `UrlElicitationCapability`: any object (unknown keys
are ignored). -/
def UrlElicitationCapability.fromJson : Json → Option UrlElicitationCapability
  | .obj _ => some {}
  | _ => none

/-- `Serialize` for `ElicitationCapability`. -/
def ElicitationCapability.toJson (c : ElicitationCapability) : Json :=
  .obj (optEntry "form" (c.form.map FormElicitationCapability.toJson)
    ++ optEntry "url" (c.url.map UrlElicitationCapability.toJson)
    ++ optEntry "schemaValidation" (c.schema_validation.map Json.bool))

/-- `Deserialize` for `ElicitationCapability`. -/
def ElicitationCapability.fromJson : Json → Option ElicitationCapability
  | .obj l => do
    let f ← getOptField l "form" FormElicitationCapability.fromJson
    let u ← getOptField l "url" UrlElicitationCapability.fromJson
    let sv ← getOptField l "schemaValidation" boolFromJson
    pure { form := f, url := u, schema_validation := sv }
  | _ => none

/-- `Serialize` for `ServerCapabilities` (all field names single words;
camelCase rename is the identity), fields in declaration order, absent
fields skipped. -/
def ServerCapabilities.toJson (r : ServerCapabilities) : Json :=
  .obj (optEntry "experimental" (r.experimental.map expToJson)
    ++ optEntry "logging" (r.logging.map jsonObjectToJson)
    ++ optEntry "completions" (r.completions.map jsonObjectToJson)
    ++ optEntry "prompts" (r.prompts.map PromptsCapability.toJson)
    ++ optEntry "resources" (r.resources.map ResourcesCapability.toJson)
    ++ optEntry "tools" (r.tools.map ToolsCapability.toJson)
    ++ optEntry "tasks" (r.tasks.map TasksCapability.toJson))

/-- `Deserialize` for `ServerCapabilities`. -/
def ServerCapabilities.fromJson : Json → Option ServerCapabilities
  | .obj l => do
    let e ← getOptField l "experimental" expFromJson
    let lg ← getOptField l "logging" jsonObjectFromJson
    let cm ← getOptField l "completions" jsonObjectFromJson
    let pr ← getOptField l "prompts" PromptsCapability.fromJson
    let rs ← getOptField l "resources" ResourcesCapability.fromJson
    let tl ← getOptField l "tools" ToolsCapability.fromJson
    let tk ← getOptField l "tasks" TasksCapability.fromJson
    pure { experimental := e, logging := lg, completions := cm, prompts := pr,
           resources := rs, tools := tl, tasks := tk }
  | _ => none

/-- `Serialize` for `ClientCapabilities` (its field names are single
words, so its serialized keys coincide with the field names even though
the struct has no `rename_all` attribute). -/
def ClientCapabilities.toJson (r : ClientCapabilities) : Json :=
  .obj (optEntry "experimental" (r.experimental.map expToJson)
    ++ optEntry "roots" (r.roots.map RootsCapabilities.toJson)
    ++ optEntry "sampling" (r.sampling.map jsonObjectToJson)
    ++ optEntry "elicitation" (r.elicitation.map ElicitationCapability.toJson)
    ++ optEntry "tasks" (r.tasks.map TasksCapability.toJson))

/-- `Deserialize` for `ClientCapabilities`. -/
def ClientCapabilities.fromJson : Json → Option ClientCapabilities
  | .obj l => do
    let e ← getOptField l "experimental" expFromJson
    let rt ← getOptField l "roots" RootsCapabilities.fromJson
    let sm ← getOptField l "sampling" jsonObjectFromJson
    let el ← getOptField l "elicitation" ElicitationCapability.fromJson
    let tk ← getOptField l "tasks" TasksCapability.fromJson
    pure { experimental := e, roots := rt, sampling := sm, elicitation := el, tasks := tk }
  | _ => none

/-! Round-trip and key lemmas for the serialized form. -/

theorem decodeOpt_not_null {α : Type} {p : Json → Option α} {j : Json} (h : j ≠ .null) :
    decodeOpt p j = (p j).map some := by
  cases j <;> first | exact absurd rfl h | rfl

theorem decodeOpt_bool (b : Bool) :
    decodeOpt boolFromJson (Json.bool b) = some (some b) := rfl

theorem decodeOpt_jsonObject (o : JsonObject) :
    decodeOpt jsonObjectFromJson (jsonObjectToJson o) = some (some o) := rfl

theorem taskMap_from_to (m : TaskRequestMap) :
    taskMapFromJson (taskMapToJson m) = some m := by
  induction m with
  | nil => rfl
  | cons a t ih =>
    simp only [taskMapToJson, taskMapFromJson] at ih ⊢
    rw [List.map_cons, List.mapM_cons]
    simp only []
    rw [ih]
    rfl

theorem exp_from_to (m : ExperimentalCapabilities) :
    expFromJson (expToJson m) = some m := by
  induction m with
  | nil => rfl
  | cons a t ih =>
    simp only [expToJson, expFromJson] at ih ⊢
    rw [List.map_cons, List.mapM_cons]
    simp only []
    rw [ih]
    rfl

theorem decodeOpt_taskMap (m : TaskRequestMap) :
    decodeOpt taskMapFromJson (taskMapToJson m) = some (some m) := by
  rw [decodeOpt_not_null (fun h => Json.noConfusion h), taskMap_from_to]
  rfl

theorem decodeOpt_exp (m : ExperimentalCapabilities) :
    decodeOpt expFromJson (expToJson m) = some (some m) := by
  rw [decodeOpt_not_null (fun h => Json.noConfusion h), exp_from_to]
  rfl

theorem PromptsCapability.prompts_from_to (c : PromptsCapability) :
    PromptsCapability.fromJson c.toJson = some c := by
  rcases c with ⟨lc⟩
  cases lc <;> rfl

theorem TasksCapability.tasks_from_to (c : TasksCapability) :
    TasksCapability.fromJson c.toJson = some c := by
  rcases c with ⟨rq, ls, cl⟩
  cases rq <;> cases ls <;> cases cl <;>
    simp [TasksCapability.toJson, TasksCapability.fromJson, optEntry, getOptField,
      List.lookup, decodeOpt_taskMap, decodeOpt_bool, Option.map]


theorem ResourcesCapability.resources_from_to (c : ResourcesCapability) :
    ResourcesCapability.fromJson c.toJson = some c := by
  rcases c with ⟨sb, lc⟩
  cases sb <;> cases lc <;> rfl

theorem ToolsCapability.tools_from_to (c : ToolsCapability) :
    ToolsCapability.fromJson c.toJson = some c := by
  rcases c with ⟨lc⟩
  cases lc <;> rfl

theorem RootsCapabilities.roots_from_to (c : RootsCapabilities) :
    RootsCapabilities.fromJson c.toJson = some c := by
  rcases c with ⟨lc⟩
  cases lc <;> rfl

theorem FormElicitationCapability.form_from_to (c : FormElicitationCapability) :
    FormElicitationCapability.fromJson c.toJson = some c := by
  rcases c with ⟨sv⟩
  cases sv <;> rfl

theorem UrlElicitationCapability.url_from_to (c : UrlElicitationCapability) :
    UrlElicitationCapability.fromJson c.toJson = some c := by
  cases c
  rfl

theorem decodeOpt_prompts (c : PromptsCapability) :
    decodeOpt PromptsCapability.fromJson c.toJson = some (some c) := by
  rw [decodeOpt_not_null (fun h => Json.noConfusion h), PromptsCapability.prompts_from_to]
  rfl

theorem decodeOpt_resources (c : ResourcesCapability) :
    decodeOpt ResourcesCapability.fromJson c.toJson = some (some c) := by
  rw [decodeOpt_not_null (fun h => Json.noConfusion h), ResourcesCapability.resources_from_to]
  rfl

theorem decodeOpt_tools (c : ToolsCapability) :
    decodeOpt ToolsCapability.fromJson c.toJson = some (some c) := by
  rw [decodeOpt_not_null (fun h => Json.noConfusion h), ToolsCapability.tools_from_to]
  rfl

theorem decodeOpt_roots (c : RootsCapabilities) :
    decodeOpt RootsCapabilities.fromJson c.toJson = some (some c) := by
  rw [decodeOpt_not_null (fun h => Json.noConfusion h), RootsCapabilities.roots_from_to]
  rfl

theorem decodeOpt_tasks (c : TasksCapability) :
    decodeOpt TasksCapability.fromJson c.toJson = some (some c) := by
  rw [decodeOpt_not_null (fun h => Json.noConfusion h), TasksCapability.tasks_from_to]
  rfl

theorem decodeOpt_form (c : FormElicitationCapability) :
    decodeOpt FormElicitationCapability.fromJson c.toJson = some (some c) := by
  rw [decodeOpt_not_null (fun h => Json.noConfusion h), FormElicitationCapability.form_from_to]
  rfl

theorem decodeOpt_url (c : UrlElicitationCapability) :
    decodeOpt UrlElicitationCapability.fromJson c.toJson = some (some c) := by
  rw [decodeOpt_not_null (fun h => Json.noConfusion h), UrlElicitationCapability.url_from_to]
  rfl

theorem ElicitationCapability.elicitation_from_to (c : ElicitationCapability) :
    ElicitationCapability.fromJson c.toJson = some c := by
  rcases c with ⟨f, u, sv⟩
  cases f <;> cases u <;> cases sv <;>
    simp [ElicitationCapability.toJson, ElicitationCapability.fromJson, optEntry,
      getOptField, List.lookup, decodeOpt_form, decodeOpt_url, decodeOpt_bool, Option.map]

theorem decodeOpt_elicitation (c : ElicitationCapability) :
    decodeOpt ElicitationCapability.fromJson c.toJson = some (some c) := by
  rw [decodeOpt_not_null (fun h => Json.noConfusion h), ElicitationCapability.elicitation_from_to]
  rfl

theorem ServerCapabilities.serverCaps_from_to (r : ServerCapabilities) :
    ServerCapabilities.fromJson r.toJson = some r := by
  rcases r with ⟨e, lg, cm, pr, rs, tl, tk⟩
  cases e <;> cases lg <;> cases cm <;> cases pr <;> cases rs <;> cases tl <;> cases tk <;>
    simp [ServerCapabilities.toJson, ServerCapabilities.fromJson, optEntry, getOptField,
      List.lookup, decodeOpt_exp, decodeOpt_jsonObject, decodeOpt_prompts,
      decodeOpt_resources, decodeOpt_tools, decodeOpt_tasks, Option.map]

theorem ClientCapabilities.clientCaps_from_to (r : ClientCapabilities) :
    ClientCapabilities.fromJson r.toJson = some r := by
  rcases r with ⟨e, rt, sm, el, tk⟩
  cases e <;> cases rt <;> cases sm <;> cases el <;> cases tk <;>
    simp [ClientCapabilities.toJson, ClientCapabilities.fromJson, optEntry, getOptField,
      List.lookup, decodeOpt_exp, decodeOpt_roots, decodeOpt_jsonObject,
      decodeOpt_elicitation, decodeOpt_tasks, Option.map]


/-- The serialized key of each `ServerCapabilities` field. -/
def ServerField.key : ServerField → String
  | .experimental => "experimental"
  | .logging => "logging"
  | .completions => "completions"
  | .prompts => "prompts"
  | .resources => "resources"
  | .tools => "tools"
  | .tasks => "tasks"

/-- The serialized key of each `ClientCapabilities` field. -/
def ClientField.key : ClientField → String
  | .experimental => "experimental"
  | .roots => "roots"
  | .sampling => "sampling"
  | .elicitation => "elicitation"
  | .tasks => "tasks"

theorem pair_mem_optEntry {k' k : String} {x : Json} {v : Option Json} :
    (k', x) ∈ optEntry k v ↔ (k' = k ∧ v = some x) := by
  cases v <;> simp [optEntry]
  exact fun _ => eq_comm

theorem ServerCapabilities.server_mem_keys_iff (r : ServerCapabilities) (f : ServerField) :
    f.key ∈ r.toJson.keys ↔ (r.get f).isSome := by
  cases f <;>
    simp [ServerCapabilities.toJson, Json.keys, ServerField.key, ServerCapabilities.get,
      List.map_append, pair_mem_optEntry, Option.isSome_iff_exists] <;>
    exact ⟨fun ⟨x, a, h, _⟩ => ⟨a, h⟩, fun ⟨a, h⟩ => ⟨_, a, h, rfl⟩⟩

theorem ClientCapabilities.client_mem_keys_iff (r : ClientCapabilities) (f : ClientField) :
    f.key ∈ r.toJson.keys ↔ (r.get f).isSome := by
  cases f <;>
    simp [ClientCapabilities.toJson, Json.keys, ClientField.key, ClientCapabilities.get,
      List.map_append, pair_mem_optEntry, Option.isSome_iff_exists] <;>
    exact ⟨fun ⟨x, a, h, _⟩ => ⟨a, h⟩, fun ⟨a, h⟩ => ⟨_, a, h, rfl⟩⟩

theorem PromptsCapability.prompts_keys_sub (c : PromptsCapability) :
    c.toJson.keys ⊆ ["listChanged"] := by
  rcases c with ⟨lc⟩
  cases lc <;> simp [PromptsCapability.toJson, Json.keys, optEntry]

theorem ResourcesCapability.resources_keys_sub (c : ResourcesCapability) :
    c.toJson.keys ⊆ ["subscribe", "listChanged"] := by
  rcases c with ⟨sb, lc⟩
  cases sb <;> cases lc <;> simp [ResourcesCapability.toJson, Json.keys, optEntry]

theorem ToolsCapability.tools_keys_sub (c : ToolsCapability) :
    c.toJson.keys ⊆ ["listChanged"] := by
  rcases c with ⟨lc⟩
  cases lc <;> simp [ToolsCapability.toJson, Json.keys, optEntry]

theorem RootsCapabilities.roots_keys_sub (c : RootsCapabilities) :
    c.toJson.keys ⊆ ["listChanged"] := by
  rcases c with ⟨lc⟩
  cases lc <;> simp [RootsCapabilities.toJson, Json.keys, optEntry]

theorem TasksCapability.tasks_keys_sub (c : TasksCapability) :
    c.toJson.keys ⊆ ["requests", "list", "cancel"] := by
  rcases c with ⟨rq, ls, cl⟩
  cases rq <;> cases ls <;> cases cl <;>
    simp [TasksCapability.toJson, Json.keys, optEntry, List.subset_def]

theorem FormElicitationCapability.form_keys_sub (c : FormElicitationCapability) :
    c.toJson.keys ⊆ ["schemaValidation"] := by
  rcases c with ⟨sv⟩
  cases sv <;> simp [FormElicitationCapability.toJson, Json.keys, optEntry]

theorem UrlElicitationCapability.url_keys_sub (c : UrlElicitationCapability) :
    c.toJson.keys ⊆ [] := by
  cases c
  simp [UrlElicitationCapability.toJson, Json.keys]

theorem ElicitationCapability.elicitation_keys_sub (c : ElicitationCapability) :
    c.toJson.keys ⊆ ["form", "url", "schemaValidation"] := by
  rcases c with ⟨f, u, sv⟩
  cases f <;> cases u <;> cases sv <;>
    simp [ElicitationCapability.toJson, Json.keys, optEntry, List.subset_def]


/-- C7: serialization round trip and key discipline: deserializing the
serialization of any `ServerCapabilities` or `ClientCapabilities` record
(or any nested capability record) returns the record unchanged; a
serialized object contains a field's key exactly when that field is
present (so no key for an absent field ever appears); and every key a
capability record can emit is the lowerCamelCase rendering of its field
name (e.g. `list_changed` serializes as `listChanged`). -/
theorem claim_C7_serialization_round_trip :
    (∀ r : ServerCapabilities, ServerCapabilities.fromJson r.toJson = some r)
    ∧ (∀ r : ClientCapabilities, ClientCapabilities.fromJson r.toJson = some r)
    ∧ (∀ c : PromptsCapability, PromptsCapability.fromJson c.toJson = some c)
    ∧ (∀ c : ResourcesCapability, ResourcesCapability.fromJson c.toJson = some c)
    ∧ (∀ c : ToolsCapability, ToolsCapability.fromJson c.toJson = some c)
    ∧ (∀ c : RootsCapabilities, RootsCapabilities.fromJson c.toJson = some c)
    ∧ (∀ c : TasksCapability, TasksCapability.fromJson c.toJson = some c)
    ∧ (∀ c : ElicitationCapability, ElicitationCapability.fromJson c.toJson = some c)
    ∧ (∀ c : FormElicitationCapability, FormElicitationCapability.fromJson c.toJson = some c)
    ∧ (∀ c : UrlElicitationCapability, UrlElicitationCapability.fromJson c.toJson = some c)
    ∧ (∀ (r : ServerCapabilities) (f : ServerField), f.key ∈ r.toJson.keys ↔ (r.get f).isSome)
    ∧ (∀ (r : ClientCapabilities) (f : ClientField), f.key ∈ r.toJson.keys ↔ (r.get f).isSome)
    ∧ (∀ c : PromptsCapability, c.toJson.keys ⊆ ["listChanged"])
    ∧ (∀ c : ResourcesCapability, c.toJson.keys ⊆ ["subscribe", "listChanged"])
    ∧ (∀ c : ToolsCapability, c.toJson.keys ⊆ ["listChanged"])
    ∧ (∀ c : RootsCapabilities, c.toJson.keys ⊆ ["listChanged"])
    ∧ (∀ c : TasksCapability, c.toJson.keys ⊆ ["requests", "list", "cancel"])
    ∧ (∀ c : ElicitationCapability, c.toJson.keys ⊆ ["form", "url", "schemaValidation"])
    ∧ (∀ c : FormElicitationCapability, c.toJson.keys ⊆ ["schemaValidation"]) :=
  ⟨ServerCapabilities.serverCaps_from_to, ClientCapabilities.clientCaps_from_to, PromptsCapability.prompts_from_to,
   ResourcesCapability.resources_from_to, ToolsCapability.tools_from_to, RootsCapabilities.roots_from_to,
   TasksCapability.tasks_from_to, ElicitationCapability.elicitation_from_to,
   FormElicitationCapability.form_from_to, UrlElicitationCapability.url_from_to,
   ServerCapabilities.server_mem_keys_iff, ClientCapabilities.client_mem_keys_iff,
   PromptsCapability.prompts_keys_sub, ResourcesCapability.resources_keys_sub, ToolsCapability.tools_keys_sub,
   RootsCapabilities.roots_keys_sub, TasksCapability.tasks_keys_sub, ElicitationCapability.elicitation_keys_sub,
   FormElicitationCapability.form_keys_sub⟩

end Rmcp
